import Mathlib

/-!
Verification development for the localization diff script
(`release_scripts/localization_scripts`): a shallow embedding of
`diffscript.py` and `outputresult.py`, together with spec-modelled
definitions for the collaborator modules (`itemchange`, `langpropsutil`,
`gitutil`, `envutil`) that the script imports but that are not part of
the two source files.  External collaborators (git access, the persisted
language-to-commit record, the project directory) are abstracted as an
environment of pure functions ``Env``; the script body is translated into
the pure function ``main`` returning either a configuration error or a
trace of the run.
-/

namespace LocDiff

/-- `ColumnStyle` (outputresult.py): style for each cell in a column,
a width and a wrap-text flag. -/
structure ColumnStyle where
  width : Nat
  wrap_text : Bool
deriving Repr, DecidableEq

/-- `OutputResult` (outputresult.py): a result ready to be written to
file(s).  Three row/column tables and an optional per-column style list.
The Python class stores whatever the constructor receives, including
`None` for `omitted`, `deleted` and `style`, so those fields are options. -/
structure OutputResult where
  results : List (List String)
  omitted : Option (List (List String))
  deleted : Option (List (List String))
  column_styles : Option (List ColumnStyle)
deriving Repr, DecidableEq

/-- `OutputResult.__init__` (outputresult.py, lines 21-38): stores the four
arguments unchanged into the fields `results`, `omitted`, `deleted` and
`column_styles`. -/
def OutputResult_init (results : List (List String))
    (omitted : Option (List (List String)))
    (deleted : Option (List (List String)))
    (style : Option (List ColumnStyle)) : OutputResult :=
  { results := results, omitted := omitted, deleted := deleted,
    column_styles := style }

/-- `OutputResult.__init__` with the Python default arguments applied:
`omitted`, `deleted` and `style` all default to `None`. -/
def OutputResult_init_defaults (results : List (List String)) : OutputResult :=
  OutputResult_init results none none none

/-- Modelled from the spec: `itemchange.py` is not under src.  The spec's
ChangeRecord is one of Added(key, newValue), Updated(key, oldValue,
newValue), Deleted(key, oldValue) - a tagged variant. -/
inductive ChangeRecord
  | added (key newValue : String)
  | updated (key oldValue newValue : String)
  | deleted (key oldValue : String)
deriving Repr, DecidableEq

/-- The key a ChangeRecord classifies. -/
def ChangeRecord.key : ChangeRecord → String
  | .added k _ => k
  | .updated k _ _ => k
  | .deleted k _ => k

/-- Whether a ChangeRecord is a Deleted record. -/
def ChangeRecord.is_deleted : ChangeRecord → Bool
  | .deleted _ _ => true
  | _ => false

/-- A PropertyMap: flat key-value pairs of one properties file at one
commit, in iteration order.  The spec requires keys to be unique. -/
abbrev PropertyMap := List (String × String)

/-- Keys of a PropertyMap are pairwise distinct. -/
def PropertyMap.unique_keys (m : PropertyMap) : Prop :=
  (m.map Prod.fst).Nodup

instance : DecidablePred PropertyMap.unique_keys := fun m =>
  inferInstanceAs (Decidable ((m.map Prod.fst).Nodup))

/-- Lookup of a key in a PropertyMap (first match wins). -/
def PropertyMap.find (m : PropertyMap) (key : String) : Option String :=
  match m with
  | [] => none
  | (k, v) :: rest => if k = key then some v else PropertyMap.find rest key

/-- Modelled from the spec: the diff classifier of `itemchange.py` is not
under src.  Spec 4.3: for every key in new absent from old, Added; for
every key in both whose values differ (exact string equality), Updated;
for every key in old absent from new, Deleted.  Unchanged keys produce no
record.  Ordering follows the iteration order of the newer map for
additions and updates and of the older map for deletions. -/
def get_changed (old new : PropertyMap) : List ChangeRecord :=
  (new.filterMap (fun kv =>
    match PropertyMap.find old kv.1 with
    | none => some (.added kv.1 kv.2)
    | some ov => if ov = kv.2 then none else some (.updated kv.1 ov kv.2)))
  ++ (old.filterMap (fun kv =>
    match PropertyMap.find new kv.1 with
    | none => some (.deleted kv.1 kv.2)
    | some _ => none))

/-- Number of output columns: record type, key, old value, new value, and
optionally a translation-status column (spec 4.4, show_translated_col). -/
def num_columns (show_translated_col : Bool) : Nat :=
  if show_translated_col then 5 else 4

/-- Cells of the row for one ChangeRecord: type tag, key, old value, new
value. -/
def record_cells : ChangeRecord → List String
  | .added k nv => ["ADDITION", k, "", nv]
  | .updated k ov nv => ["UPDATE", k, ov, nv]
  | .deleted k ov => ["DELETION", k, ov, ""]

/-- Row for one ChangeRecord, with the translation-status column appended
when requested. -/
def record_row (show_translated_col : Bool) (r : ChangeRecord) : List String :=
  record_cells r ++ (if show_translated_col then [""] else [])

/-- Header row embedding the two resolved commit identifiers, padded with
empty cells to the table width (spec 4.4). -/
def header_row (show_translated_col : Bool) (c1 c2 : String) : List String :=
  ("Diff between " ++ c1 ++ " and " ++ c2)
    :: List.replicate (num_columns show_translated_col - 1) ""

/-- Fixed per-column styles: widths and wrap are fixed per output column
index, not data-dependent (spec 4.4). -/
def fixed_column_styles (show_translated_col : Bool) : List ColumnStyle :=
  List.replicate (num_columns show_translated_col) ⟨25, true⟩

/-- Modelled from the spec: `itemchange.convert_to_output` is not under
src.  Spec 4.4: converts the ordered ChangeRecords into row sequences,
optionally prepending a header row that embeds the two resolved commit
identifiers (omitted when commit display is suppressed, i.e. when the ids
are None); show_translated_col adds a column; separate_deleted routes
Deleted records into the deleted table instead of results. -/
def convert_to_output (changes : List ChangeRecord)
    (commit1_id commit2_id : Option String)
    (show_translated_col : Bool) (separate_deleted : Bool) : OutputResult :=
  let mainRecs :=
    if separate_deleted then changes.filter (fun r => !r.is_deleted)
    else changes
  let delRecs :=
    if separate_deleted then changes.filter (fun r => r.is_deleted)
    else []
  let header : List (List String) :=
    match commit1_id, commit2_id with
    | some c1, some c2 => [header_row show_translated_col c1 c2]
    | _, _ => []
  OutputResult_init
    (header ++ mainRecs.map (record_row show_translated_col))
    none
    (if separate_deleted then
      some (delRecs.map (record_row show_translated_col)) else none)
    (some (fixed_column_styles show_translated_col))

/-- `OutputType` (outputtype.py, imported by diffscript.py): the two
supported output types. -/
inductive OutputType
  | csv
  | xlsx
deriving Repr, DecidableEq

/-- The two sink writers dispatched to at diffscript.py lines 72-75. -/
inductive SinkWriter
  | write_results_to_csv
  | write_results_to_xlsx
deriving Repr, DecidableEq

/-- The parsed command-line arguments of diffscript.py (argparse
destinations, lines 19-44). -/
structure Args where
  output_path : String
  repo_path : Option String
  commit_1_id : Option String
  commit_2_id : String
  no_commits : Bool
  output_type : OutputType
  language : Option String
  no_translated_col : Bool
deriving Repr, DecidableEq

/-- The argparse defaults of diffscript.py: only the positional
output path is required; `-lc` defaults to HEAD, `-nc` and `-nt` to
false, `-o` to xlsx, and `-r`, `-fc`, `-l` to None. -/
def default_args (output_path : String) : Args :=
  { output_path := output_path
    repo_path := none
    commit_1_id := none
    commit_2_id := "HEAD"
    no_commits := false
    output_type := OutputType.xlsx
    language := none
    no_translated_col := false }

/-- The external collaborators of diffscript.py, abstracted as pure
functions: the project directory (envutil.get_proj_dir), git root and
commit resolution and the property-file diff (gitutil), and the persisted
language-to-commit record (langpropsutil.get_commit_for_language, which
may have no entry for a language). -/
structure Env where
  get_proj_dir : String
  get_git_root : String → String
  get_commit_id : String → String → String
  get_property_files_diff : String → String → String → List ChangeRecord
  get_commit_for_language : String → Option String

/-- The arguments of the single `convert_to_output` call made by
diffscript.py (lines 64-69). -/
structure ConvertCall where
  changes : List ChangeRecord
  commit1_id : Option String
  commit2_id : Option String
  show_translated_col : Bool
  separate_deleted : Bool
deriving Repr, DecidableEq

/-- Trace of one successful run of diffscript.main: the repo path used,
the resolved first commit, the second commit, the single shaper call, its
result, and the single sink-writer call (writer, result written, path). -/
structure RunTrace where
  repo_path : String
  commit_1_id : String
  commit_2_id : String
  convert_call : ConvertCall
  processing_result : OutputResult
  writer : SinkWriter
  writer_result : OutputResult
  writer_path : String
deriving Repr, DecidableEq

/-- Outcome of diffscript.main: either the configuration error path
(message and usage help printed to stderr, then sys.exit(1)) or a
successful run ending in sys.exit(0). -/
inductive MainResult
  | configError
  | success (t : RunTrace)
deriving Repr, DecidableEq

/-- The process exit code of a MainResult: 1 for the configuration error
(diffscript.py line 59), 0 on success (line 77). -/
def exitCode : MainResult → Nat
  | .configError => 1
  | .success _ => 0

/-- The start-point commit actually used (diffscript.py lines 48-53): the
first-commit flag, overridden by the language lookup whenever a language
is given. -/
def resolve_commit_1 (env : Env) (args : Args) : Option String :=
  match args.language with
  | some lang => env.get_commit_for_language lang
  | none => args.commit_1_id

/-- `main` of diffscript.py (lines 16-77), after argument parsing: resolve
the repo path (line 45), resolve the start commit (lines 47-53), fail
with usage help and exit code 1 when it is missing (lines 55-59),
otherwise diff the property files, shape the records (lines 63-69),
dispatch to the sink writer selected by the output type (lines 72-75) and
exit 0. -/
def main (env : Env) (args : Args) : MainResult :=
  let repo_path :=
    match args.repo_path with
    | some p => p
    | none => env.get_git_root env.get_proj_dir
  let output_path := args.output_path
  let output_type := args.output_type
  let show_translated_col := !args.no_translated_col
  match resolve_commit_1 env args with
  | none => .configError
  | some commit_1_id =>
    let commit_2_id := args.commit_2_id
    let show_commits := !args.no_commits
    let changes := env.get_property_files_diff repo_path commit_1_id commit_2_id
    let call : ConvertCall :=
      { changes := changes
        commit1_id :=
          if show_commits then some (env.get_commit_id repo_path commit_1_id)
          else none
        commit2_id :=
          if show_commits then some (env.get_commit_id repo_path commit_2_id)
          else none
        show_translated_col := show_translated_col
        separate_deleted := true }
    let processing_result :=
      convert_to_output call.changes call.commit1_id call.commit2_id
        call.show_translated_col call.separate_deleted
    let writer :=
      match output_type with
      | OutputType.csv => SinkWriter.write_results_to_csv
      | OutputType.xlsx => SinkWriter.write_results_to_xlsx
    .success
      { repo_path := repo_path
        commit_1_id := commit_1_id
        commit_2_id := commit_2_id
        convert_call := call
        processing_result := processing_result
        writer := writer
        writer_result := processing_result
        writer_path := output_path }

/-- A concrete environment used to instantiate the theorems below. -/
def env0 : Env :=
  { get_proj_dir := "proj"
    get_git_root := fun _ => "gitroot"
    get_commit_id := fun _ c => "id-" ++ c
    get_property_files_diff := fun _ _ _ =>
      [ChangeRecord.added "k" "v", ChangeRecord.deleted "dk" "dv"]
    get_commit_for_language := fun l => if l = "ja" then some "jc" else none }

/-- A concrete argument record: output path `out.csv`, first commit given
explicitly, everything else at the argparse defaults except csv output. -/
def args0 : Args :=
  { default_args "out.csv" with
      commit_1_id := some "c1", output_type := OutputType.csv }

/-- A throwaway trace used only as the fallback of `trace_of`. -/
def fallback_trace : RunTrace :=
  { repo_path := ""
    commit_1_id := ""
    commit_2_id := ""
    convert_call :=
      { changes := [], commit1_id := none, commit2_id := none
        show_translated_col := false, separate_deleted := false }
    processing_result := OutputResult_init [] none none none
    writer := SinkWriter.write_results_to_csv
    writer_result := OutputResult_init [] none none none
    writer_path := "" }

/-- Extract the trace of a successful MainResult. -/
def trace_of (r : MainResult) (fallback : RunTrace) : RunTrace :=
  match r with
  | .success t => t
  | .configError => fallback

/-- The trace of running `main` in `env0` on `args0`. -/
def trace0 : RunTrace := trace_of (main env0 args0) fallback_trace

/-- In a PropertyMap with unique keys, `find` returns the value of any
member pair. -/
theorem PropertyMap.find_eq_of_mem {m : PropertyMap} {k v : String}
    (hu : m.unique_keys) (hmem : (k, v) ∈ m) : m.find k = some v := by
  induction m with
  | nil => cases hmem
  | cons hd tl ih =>
    obtain ⟨k0, v0⟩ := hd
    simp only [PropertyMap.unique_keys, List.map_cons, List.nodup_cons] at hu
    rcases List.mem_cons.mp hmem with heq | htl
    · obtain ⟨hk, hv⟩ := Prod.mk.injEq .. ▸ heq
      simp [PropertyMap.find, hk.symm, hv.symm]
    · have hk0 : k0 ≠ k := by
        intro hkk
        exact hu.1 (hkk ▸ (List.mem_map.mpr ⟨(k, v), htl, rfl⟩))
      simp only [PropertyMap.find, if_neg hk0]
      exact ih hu.2 htl

/-- C1: the program exits with code 1 (after printing usage help to
stderr) exactly when no required start-point commit could be resolved
(neither a first-commit flag nor a language resolvable through the
persisted language-to-commit record), and with code 0 exactly when a
start-point commit was resolved and the run succeeded. -/
theorem C1_exit_code_iff_start_point (env : Env) (args : Args) :
    (exitCode (main env args) = 1 ↔ resolve_commit_1 env args = none) ∧
    (exitCode (main env args) = 0 ↔ resolve_commit_1 env args ≠ none) := by
  cases h : resolve_commit_1 env args <;> simp [main, exitCode, h]

/-- C7: `OutputResult.__init__` stores its four arguments unchanged into
the fields `results`, `omitted`, `deleted` and `column_styles`, and the
three optional arguments default to None when not supplied. -/
theorem C7_output_result_init_stores_arguments
    (results : List (List String))
    (omitted deleted : Option (List (List String)))
    (style : Option (List ColumnStyle)) :
    (OutputResult_init results omitted deleted style).results = results ∧
    (OutputResult_init results omitted deleted style).omitted = omitted ∧
    (OutputResult_init results omitted deleted style).deleted = deleted ∧
    (OutputResult_init results omitted deleted style).column_styles = style ∧
    OutputResult_init_defaults results = OutputResult_init results none none none := by
  simp [OutputResult_init, OutputResult_init_defaults]

/-- C2: whenever a language code is supplied, the start-point commit
actually used is the one resolved from the persisted language-to-commit
record, and the value of the explicit first-commit flag is ignored: the
whole run is unchanged under any replacement of that flag. -/
theorem C2_language_overrides_first_commit (env : Env) (args : Args)
    (lang : String) (h : args.language = some lang) :
    resolve_commit_1 env args = env.get_commit_for_language lang ∧
    ∀ x, main env { args with commit_1_id := x } = main env args := by
  constructor
  · simp [resolve_commit_1, h]
  · intro x
    simp [main, resolve_commit_1, h]

/-- Witness for C2 at a concrete environment and argument record. -/
theorem C2_language_overrides_first_commit_witness :
    resolve_commit_1 env0 { args0 with language := some "ja" } =
      env0.get_commit_for_language "ja" ∧
    ∀ x, main env0 { { args0 with language := some "ja" } with commit_1_id := x } =
      main env0 { args0 with language := some "ja" } :=
  C2_language_overrides_first_commit env0 { args0 with language := some "ja" }
    "ja" rfl

/-- C5: when the no-commits flag is set, both commit identifiers passed
to the output shaper are None; when it is not set, the two resolved
commit identifiers for the first and latest revisions are passed, and the
first row of the shaped results is the prepended header row embedding
them. -/
theorem C5_commit_ids_passed_to_shaper (env : Env) (args : Args)
    (t : RunTrace) (h : main env args = .success t) :
    (args.no_commits = true →
      t.convert_call.commit1_id = none ∧ t.convert_call.commit2_id = none) ∧
    (args.no_commits = false →
      t.convert_call.commit1_id =
        some (env.get_commit_id t.repo_path t.commit_1_id) ∧
      t.convert_call.commit2_id =
        some (env.get_commit_id t.repo_path t.commit_2_id) ∧
      t.processing_result.results.head? =
        some (header_row t.convert_call.show_translated_col
          (env.get_commit_id t.repo_path t.commit_1_id)
          (env.get_commit_id t.repo_path t.commit_2_id))) := by
  cases hr : resolve_commit_1 env args with
  | none => simp [main, hr] at h
  | some c1 =>
    simp only [main, hr] at h
    rw [MainResult.success.injEq] at h
    subst h
    cases hnc : args.no_commits <;>
      simp [hnc, convert_to_output, OutputResult_init]

/-- Witness for C5 at a concrete environment, arguments and trace. -/
theorem C5_commit_ids_passed_to_shaper_witness :
    (args0.no_commits = true →
      trace0.convert_call.commit1_id = none ∧
      trace0.convert_call.commit2_id = none) ∧
    (args0.no_commits = false →
      trace0.convert_call.commit1_id =
        some (env0.get_commit_id trace0.repo_path trace0.commit_1_id) ∧
      trace0.convert_call.commit2_id =
        some (env0.get_commit_id trace0.repo_path trace0.commit_2_id) ∧
      trace0.processing_result.results.head? =
        some (header_row trace0.convert_call.show_translated_col
          (env0.get_commit_id trace0.repo_path trace0.commit_1_id)
          (env0.get_commit_id trace0.repo_path trace0.commit_2_id))) :=
  C5_commit_ids_passed_to_shaper env0 args0 trace0 rfl

/-- C6: each successful run makes exactly one sink-writer call, recorded
in the trace: the CSV writer when the output type is csv, the spreadsheet
writer when it is xlsx, called with the processing result and the output
path. -/
theorem C6_single_sink_writer_dispatch (env : Env) (args : Args)
    (t : RunTrace) (h : main env args = .success t) :
    (args.output_type = OutputType.csv →
      t.writer = SinkWriter.write_results_to_csv) ∧
    (args.output_type = OutputType.xlsx →
      t.writer = SinkWriter.write_results_to_xlsx) ∧
    t.writer_result = t.processing_result ∧
    t.writer_path = args.output_path := by
  cases hr : resolve_commit_1 env args with
  | none => simp [main, hr] at h
  | some c1 =>
    simp only [main, hr] at h
    rw [MainResult.success.injEq] at h
    subst h
    refine ⟨fun ho => ?_, fun ho => ?_, rfl, rfl⟩ <;> simp [ho]

/-- Witness for C6 at a concrete environment, arguments and trace. -/
theorem C6_single_sink_writer_dispatch_witness :
    (args0.output_type = OutputType.csv →
      trace0.writer = SinkWriter.write_results_to_csv) ∧
    (args0.output_type = OutputType.xlsx →
      trace0.writer = SinkWriter.write_results_to_xlsx) ∧
    trace0.writer_result = trace0.processing_result ∧
    trace0.writer_path = args0.output_path :=
  C6_single_sink_writer_dispatch env0 args0 trace0 rfl

/-- C9: when the latest-commit flag is left at its argparse default, the
symbolic revision HEAD is the second commit of the diff: it is handed to
the property-file diff and, when commits are shown, resolved and passed
to the shaper. -/
theorem C9_latest_commit_defaults_to_HEAD (env : Env) (args : Args)
    (hdef : args.commit_2_id = (default_args args.output_path).commit_2_id)
    (t : RunTrace) (h : main env args = .success t) :
    t.commit_2_id = "HEAD" ∧
    t.convert_call.changes =
      env.get_property_files_diff t.repo_path t.commit_1_id "HEAD" ∧
    (args.no_commits = false →
      t.convert_call.commit2_id =
        some (env.get_commit_id t.repo_path "HEAD")) := by
  simp only [default_args] at hdef
  cases hr : resolve_commit_1 env args with
  | none => simp [main, hr] at h
  | some c1 =>
    simp only [main, hr] at h
    rw [MainResult.success.injEq] at h
    subst h
    refine ⟨hdef, by simp [hdef], fun hnc => ?_⟩
    simp [hnc, hdef]

/-- Witness for C9 at a concrete environment, arguments and trace. -/
theorem C9_latest_commit_defaults_to_HEAD_witness :
    trace0.commit_2_id = "HEAD" ∧
    trace0.convert_call.changes =
      env0.get_property_files_diff trace0.repo_path trace0.commit_1_id "HEAD" ∧
    (args0.no_commits = false →
      trace0.convert_call.commit2_id =
        some (env0.get_commit_id trace0.repo_path "HEAD")) :=
  C9_latest_commit_defaults_to_HEAD env0 args0 rfl trace0 rfl

/-- C10: when the repo-path flag is omitted, the repository path used is
derived from the project directory of the script by resolving its
enclosing git root, and omitting the flag never causes the configuration
error exit. -/
theorem C10_repo_path_defaults_to_git_root (env : Env) (args : Args)
    (hrp : args.repo_path = none) :
    (∀ t, main env args = .success t →
      t.repo_path = env.get_git_root env.get_proj_dir) ∧
    (∀ c, resolve_commit_1 env args = some c →
      main env args ≠ .configError) := by
  constructor
  · intro t h
    cases hr : resolve_commit_1 env args with
    | none => simp [main, hr] at h
    | some c1 =>
      simp only [main, hr] at h
      rw [MainResult.success.injEq] at h
      subst h
      simp [hrp]
  · intro c hc
    simp [main, hc]

/-- Witness for C10 at a concrete environment and argument record. -/
theorem C10_repo_path_defaults_to_git_root_witness :
    (∀ t, main env0 args0 = .success t →
      t.repo_path = env0.get_git_root env0.get_proj_dir) ∧
    (∀ c, resolve_commit_1 env0 args0 = some c →
      main env0 args0 ≠ .configError) :=
  C10_repo_path_defaults_to_git_root env0 args0 rfl

/-- Every record row spans exactly `num_columns` cells. -/
theorem record_row_length (stc : Bool) (r : ChangeRecord) :
    (record_row stc r).length = num_columns stc := by
  cases r <;> cases stc <;> simp [record_row, record_cells, num_columns]

/-- The header row spans exactly `num_columns` cells. -/
theorem header_row_length (stc : Bool) (c1 c2 : String) :
    (header_row stc c1 c2).length = num_columns stc := by
  cases stc <;> simp [header_row, num_columns]

/-- Every row of the `results` table of a shaped output spans exactly
`num_columns` cells. -/
theorem convert_results_row_length (changes : List ChangeRecord)
    (c1 c2 : Option String) (stc sd : Bool) :
    ∀ row ∈ (convert_to_output changes c1 c2 stc sd).results,
      row.length = num_columns stc := by
  intro row hrow
  rcases c1 with _ | a <;> rcases c2 with _ | b <;>
    simp only [convert_to_output, OutputResult_init, List.nil_append,
      List.singleton_append, List.mem_cons, List.mem_map] at hrow
  · obtain ⟨r, hr, rfl⟩ := hrow
    exact record_row_length stc r
  · obtain ⟨r, hr, rfl⟩ := hrow
    exact record_row_length stc r
  · obtain ⟨r, hr, rfl⟩ := hrow
    exact record_row_length stc r
  · rcases hrow with rfl | ⟨r, hr, rfl⟩
    · exact header_row_length stc a b
    · exact record_row_length stc r

/-- Every row of the `deleted` table of a shaped output spans exactly
`num_columns` cells. -/
theorem convert_deleted_row_length (changes : List ChangeRecord)
    (c1 c2 : Option String) (stc sd : Bool) :
    ∀ tbl, (convert_to_output changes c1 c2 stc sd).deleted = some tbl →
      ∀ row ∈ tbl, row.length = num_columns stc := by
  intro tbl htbl row hrow
  cases sd with
  | false => simp [convert_to_output, OutputResult_init] at htbl
  | true =>
    simp only [convert_to_output, OutputResult_init, if_true,
      Option.some.injEq] at htbl
    subst htbl
    obtain ⟨r, hr, rfl⟩ := List.mem_map.mp hrow
    exact record_row_length stc r

/-- C4: for every OutputResult constructed by the output shaper whose
column styles are provided, every row of every table (results, omitted,
deleted) has exactly as many cells as there are column styles. -/
theorem C4_row_width_matches_column_styles
    (changes : List ChangeRecord) (c1 c2 : Option String) (stc sd : Bool)
    (styles : List ColumnStyle)
    (h : (convert_to_output changes c1 c2 stc sd).column_styles = some styles) :
    (∀ row ∈ (convert_to_output changes c1 c2 stc sd).results,
      row.length = styles.length) ∧
    (∀ tbl, (convert_to_output changes c1 c2 stc sd).omitted = some tbl →
      ∀ row ∈ tbl, row.length = styles.length) ∧
    (∀ tbl, (convert_to_output changes c1 c2 stc sd).deleted = some tbl →
      ∀ row ∈ tbl, row.length = styles.length) := by
  have hstyles : fixed_column_styles stc = styles := by
    simpa [convert_to_output, OutputResult_init] using h
  subst hstyles
  have hslen : (fixed_column_styles stc).length = num_columns stc := by
    simp [fixed_column_styles]
  rw [hslen]
  refine ⟨convert_results_row_length changes c1 c2 stc sd, ?_,
    convert_deleted_row_length changes c1 c2 stc sd⟩
  intro tbl htbl
  simp [convert_to_output, OutputResult_init] at htbl

/-- Witness for C4 at a concrete shaped output. -/
theorem C4_row_width_matches_column_styles_witness :
    (∀ row ∈ (convert_to_output [ChangeRecord.added "k" "v"]
        (some "a") (some "b") true true).results,
      row.length = (fixed_column_styles true).length) ∧
    (∀ tbl, (convert_to_output [ChangeRecord.added "k" "v"]
        (some "a") (some "b") true true).omitted = some tbl →
      ∀ row ∈ tbl, row.length = (fixed_column_styles true).length) ∧
    (∀ tbl, (convert_to_output [ChangeRecord.added "k" "v"]
        (some "a") (some "b") true true).deleted = some tbl →
      ∀ row ∈ tbl, row.length = (fixed_column_styles true).length) :=
  C4_row_width_matches_column_styles [ChangeRecord.added "k" "v"]
    (some "a") (some "b") true true (fixed_column_styles true) rfl

/-- With separate-deleted shaping, the deleted table holds exactly the
rows of the Deleted records and no results row starts with the DELETION
tag. -/
theorem convert_separate_deleted_routing (changes : List ChangeRecord)
    (c1 c2 : Option String) (stc : Bool) :
    (convert_to_output changes c1 c2 stc true).deleted =
      some ((changes.filter (fun r => r.is_deleted)).map (record_row stc)) ∧
    ∀ row ∈ (convert_to_output changes c1 c2 stc true).results,
      row.head? ≠ some "DELETION" := by
  constructor
  · simp [convert_to_output, OutputResult_init]
  · intro row hrow
    rcases c1 with _ | a <;> rcases c2 with _ | b <;>
      simp only [convert_to_output, OutputResult_init, List.nil_append,
        List.singleton_append, List.mem_cons, List.mem_map] at hrow
    · obtain ⟨r, hr, rfl⟩ := hrow
      rcases List.mem_filter.mp hr with ⟨-, hnd⟩
      cases r <;> simp_all [record_row, record_cells, ChangeRecord.is_deleted]
    · obtain ⟨r, hr, rfl⟩ := hrow
      rcases List.mem_filter.mp hr with ⟨-, hnd⟩
      cases r <;> simp_all [record_row, record_cells, ChangeRecord.is_deleted]
    · obtain ⟨r, hr, rfl⟩ := hrow
      rcases List.mem_filter.mp hr with ⟨-, hnd⟩
      cases r <;> simp_all [record_row, record_cells, ChangeRecord.is_deleted]
    · rcases hrow with rfl | ⟨r, hr, rfl⟩
      · intro hcontra
        simp only [header_row, List.head?_cons, Option.some.injEq] at hcontra
        have hlen := congrArg String.length hcontra
        rw [String.length_append, String.length_append,
          String.length_append] at hlen
        have h1 : ("Diff between " : String).length = 13 := rfl
        have h2 : (" and " : String).length = 5 := rfl
        have h3 : ("DELETION" : String).length = 8 := rfl
        omega
      · rcases List.mem_filter.mp hr with ⟨-, hnd⟩
        cases r <;> simp_all [record_row, record_cells, ChangeRecord.is_deleted]

/-- C8: every run of the CLI passes separate_deleted=True to the output
shaper (no flag can select False), so Deleted records are always routed
to the deleted table and never appear in the results table. -/
theorem C8_separate_deleted_always_true (env : Env) (args : Args)
    (t : RunTrace) (h : main env args = .success t) :
    t.convert_call.separate_deleted = true ∧
    t.processing_result.deleted =
      some ((t.convert_call.changes.filter (fun r => r.is_deleted)).map
        (record_row t.convert_call.show_translated_col)) ∧
    ∀ row ∈ t.processing_result.results, row.head? ≠ some "DELETION" := by
  cases hr : resolve_commit_1 env args with
  | none => simp [main, hr] at h
  | some c1 =>
    simp only [main, hr] at h
    rw [MainResult.success.injEq] at h
    subst h
    exact ⟨rfl, (convert_separate_deleted_routing _ _ _ _).1,
      (convert_separate_deleted_routing _ _ _ _).2⟩

/-- Witness for C8 at a concrete environment, arguments and trace. -/
theorem C8_separate_deleted_always_true_witness :
    trace0.convert_call.separate_deleted = true ∧
    trace0.processing_result.deleted =
      some ((trace0.convert_call.changes.filter (fun r => r.is_deleted)).map
        (record_row trace0.convert_call.show_translated_col)) ∧
    ∀ row ∈ trace0.processing_result.results, row.head? ≠ some "DELETION" :=
  C8_separate_deleted_always_true env0 args0 trace0 rfl

/-- C3: diffing a PropertyMap (unique keys) against itself yields zero
ChangeRecords, and more generally any key bound to the same value in the
old and new maps produces no record. -/
theorem C3_self_diff_empty_unchanged_no_record
    (m old new : PropertyMap) (hm : m.unique_keys)
    (hnu : new.unique_keys) (k v : String)
    (ho : old.find k = some v) (hn : new.find k = some v) :
    get_changed m m = [] ∧
    ∀ r ∈ get_changed old new, r.key ≠ k := by
  constructor
  · unfold get_changed
    rw [List.append_eq_nil]
    constructor
    · rw [List.filterMap_eq_nil_iff]
      rintro ⟨k0, v0⟩ hmem
      have hfind := PropertyMap.find_eq_of_mem hm hmem
      simp [hfind]
    · rw [List.filterMap_eq_nil_iff]
      rintro ⟨k0, v0⟩ hmem
      have hfind := PropertyMap.find_eq_of_mem hm hmem
      simp [hfind]
  · rintro r hr hkey
    unfold get_changed at hr
    rcases List.mem_append.mp hr with h1 | h2
    · obtain ⟨⟨k0, v0⟩, hmem, hf⟩ := List.mem_filterMap.mp h1
      cases hfo : PropertyMap.find old k0 with
      | none =>
        simp only [hfo, Option.some.injEq] at hf
        subst hf
        simp only [ChangeRecord.key] at hkey
        subst hkey
        rw [ho] at hfo
        exact Option.noConfusion hfo
      | some ov =>
        simp only [hfo] at hf
        by_cases hov : ov = v0
        · simp [hov] at hf
        · simp only [if_neg hov, Option.some.injEq] at hf
          subst hf
          simp only [ChangeRecord.key] at hkey
          subst hkey
          rw [ho, Option.some.injEq] at hfo
          have hv0 : PropertyMap.find new k0 = some v0 :=
            PropertyMap.find_eq_of_mem hnu hmem
          rw [hn, Option.some.injEq] at hv0
          exact hov (hfo ▸ hv0)
    · obtain ⟨⟨k0, v0⟩, hmem, hf⟩ := List.mem_filterMap.mp h2
      cases hfo : PropertyMap.find new k0 with
      | none =>
        simp only [hfo, Option.some.injEq] at hf
        subst hf
        simp only [ChangeRecord.key] at hkey
        subst hkey
        rw [hn] at hfo
        exact Option.noConfusion hfo
      | some w =>
        simp [hfo] at hf

/-- Witness for C3 at concrete maps. -/
theorem C3_self_diff_empty_unchanged_no_record_witness :
    get_changed [("a", "1"), ("b", "2")] [("a", "1"), ("b", "2")] = [] ∧
    ∀ r ∈ get_changed [("a", "1"), ("b", "2")] [("a", "1"), ("c", "3")],
      r.key ≠ "a" :=
  C3_self_diff_empty_unchanged_no_record
    [("a", "1"), ("b", "2")] [("a", "1"), ("b", "2")] [("a", "1"), ("c", "3")]
    (by decide) (by decide) "a" "1" (by decide) (by decide)

end LocDiff
